import Mathlib

/-!
# Verification of the iocap token-bucket rate limiter

Shallow embedding of the `iocap` Go package: the leaky-bucket core
(`bucket.go`), the rate options and Group sharing (`iocap.go`), the keyed
handler mapper (`mapper.go`), and the rate-limited Reader/Writer loops.

Go machine integers (`int`, `time.Duration` in nanoseconds, `time.Time` as
nanoseconds since an epoch) are modelled as unbounded `Int`; none of the
verified properties exercises ranges anywhere near 2^63, so wrap-around is
not modelled.  Blocking operations are modelled with an explicit current
time that is threaded through, with `time.Sleep` idealized as sleeping
exactly the requested (positive) duration; loops that may not terminate
take a fuel parameter and return `Option`.
-/

namespace Iocap

/-- `RateOpts` from `iocap.go`: `Interval` is the time period of the rate
(nanoseconds), `Size` the number of bytes per interval. -/
structure RateOpts where
  Interval : Int
  Size : Int
  deriving DecidableEq, Repr

/-- The `bucket` struct from `bucket.go`: its rate options, the timestamp
`drained` of the last drain, and the current token count `tokens`.
The `sync.RWMutex` has no sequential content and is not modelled. -/
structure Bucket where
  opts : RateOpts
  drained : Int
  tokens : Int
  deriving DecidableEq, Repr

/-- `newBucket` from `bucket.go`: stores the options; `drained` and
`tokens` start at Go's zero values.  Note that it performs no validation
whatsoever on `opts`. -/
def newBucket (opts : RateOpts) : Bucket :=
  { opts := opts, drained := 0, tokens := 0 }

/-- `bucket.insert` from `bucket.go`, sequential semantics: the snapshot
read under the read lock and the re-check under the write lock see the same
`tokens` value, so the `goto INSERT` retry never fires and the function is
the pure state transformer below.  Returns the number of tokens actually
inserted together with the updated bucket. -/
def Bucket.insert (b : Bucket) (n : Int) : Int × Bucket :=
  let tokens := b.tokens
  if tokens = b.opts.Size then
    (0, b)
  else if tokens + n > b.opts.Size then
    (b.opts.Size - tokens, { b with tokens := b.opts.Size })
  else
    (n, { b with tokens := tokens + n })

/-- The non-blocking arm of `bucket.drain` from `bucket.go`: if at least
`Interval` has elapsed since `drained`, reset `tokens` to 0 and stamp
`drained` with the current time; otherwise do nothing.  Returns the bucket
together with the time at which the call returns. -/
def Bucket.drainNB (b : Bucket) (now : Int) : Bucket × Int :=
  if now - b.drained ≥ b.opts.Interval then
    ({ b with tokens := 0, drained := now }, now)
  else
    (b, now)

/-- `bucket.drain` from `bucket.go`.  When the drain is due it resets the
bucket at the current time.  Otherwise, when `wait` is set, it sleeps for
`drained + Interval - now` (a positive duration in this branch) and then
performs the recursive non-blocking drain at the wake-up time; the sleep is
idealized as exact, so the wake-up time is `drained + Interval`.  The
time-of-check/time-of-use re-check of `drained` always passes sequentially. -/
def Bucket.drain (b : Bucket) (wait : Bool) (now : Int) : Bucket × Int :=
  if now - b.drained ≥ b.opts.Interval then
    ({ b with tokens := 0, drained := now }, now)
  else if wait then
    Bucket.drainNB b (b.drained + b.opts.Interval)
  else
    (b, now)

/-- The retry loop of `bucket.wait` from `bucket.go` (`for v == 0 { ... }`):
try to insert, and on a zero grant perform a blocking drain and retry.
`fuel` bounds the number of iterations; `none` means the loop did not
return within `fuel` iterations. -/
def Bucket.waitAux : Nat → Bucket → Int → Int → Option (Int × Bucket × Int)
  | 0, _, _, _ => none
  | fuel + 1, b, n, now =>
    let r := Bucket.insert b n
    if r.1 = 0 then
      let d := Bucket.drain r.2 true now
      Bucket.waitAux fuel d.1 n d.2
    else
      some (r.1, r.2, now)

/-- `bucket.wait` from `bucket.go`: an up-front non-blocking drain followed
by the insert/blocking-drain retry loop. -/
def Bucket.wait (fuel : Nat) (b : Bucket) (n : Int) (now : Int) :
    Option (Int × Bucket × Int) :=
  let d := Bucket.drainNB b now
  Bucket.waitAux fuel d.1 n d.2

/-- Modelled from the spec: the body of `bucket.setRate` is not present in
the sources (only its callers `Reader.SetRate`, `Writer.SetRate`,
`Group.SetRate` and the test `TestBucketSetRate` are).  Per the spec,
`SetRate` "atomically swaps the active rate under the exclusive lock;
in-flight `consumed` value is preserved (not reset)": it replaces `opts`
and touches nothing else. -/
def Bucket.setRate (b : Bucket) (opts : RateOpts) : Bucket :=
  { b with opts := opts }

/-- Modelled from the spec: the `Unlimited` rate sentinel is referenced by
the tests (`NewReader(.., Unlimited)` etc.) but its definition is not
present in the sources.  Per the spec it is "a distinguished configuration
value compared by equality" (e.g. the zero value, capacity 0). -/
def Unlimited : RateOpts :=
  { Interval := 0, Size := 0 }

/-- Modelled from the spec: the unlimited short-circuit in the acquisition
path is not present in the sources (the `insert` in `bucket.go` predates
the `Unlimited` sentinel).  Per the spec, under the unlimited configuration
"all acquisition calls must short-circuit to grant full amount
immediately"; otherwise the acquisition is the `insert` from `bucket.go`. -/
def Bucket.insertU (b : Bucket) (n : Int) : Int × Bucket :=
  if b.opts = Unlimited then (n, b) else Bucket.insert b n

/-- Modelled from the spec: `wait` under the unlimited configuration
grants the full amount immediately, without draining, blocking, or
consulting the token count; otherwise it is the `wait` from `bucket.go`. -/
def Bucket.waitU (fuel : Nat) (b : Bucket) (n : Int) (now : Int) :
    Option (Int × Bucket × Int) :=
  if b.opts = Unlimited then some (n, b, now) else Bucket.wait fuel b n now

/-! ## Group sharing (`iocap.go`)

Go shares one `*bucket` pointer between all wrappers created from a
`Group`.  Pointer sharing is modelled with an explicit heap: buckets live
in a store `Nat → Bucket` addressed by ids, a wrapper or group holds the id
of its bucket, and an allocator counter supplies fresh ids. -/

/-- A heap of buckets addressed by ids, together with the next fresh id. -/
structure BucketHeap where
  store : Nat → Bucket
  next : Nat

/-- The `Group` struct from `iocap.go`: it holds (a reference to) one
bucket. -/
structure Group where
  bucketId : Nat

/-- The `Reader` struct from `iocap.go`: the underlying source reader
(opaque, by id) and (a reference to) a bucket. -/
structure Reader where
  srcId : Nat
  bucketId : Nat

/-- The `Writer` struct from `iocap.go`: the underlying destination writer
(opaque, by id) and (a reference to) a bucket. -/
structure Writer where
  dstId : Nat
  bucketId : Nat

/-- `NewReader` from `iocap.go`: wraps `src` in a reader with a freshly
allocated private bucket (`newBucket opts`). -/
def NewReader (srcId : Nat) (opts : RateOpts) (h : BucketHeap) :
    Reader × BucketHeap :=
  ({ srcId := srcId, bucketId := h.next },
   { store := Function.update h.store h.next (newBucket opts), next := h.next + 1 })

/-- `NewWriter` from `iocap.go`: wraps `dst` in a writer with a freshly
allocated private bucket (`newBucket opts`). -/
def NewWriter (dstId : Nat) (opts : RateOpts) (h : BucketHeap) :
    Writer × BucketHeap :=
  ({ dstId := dstId, bucketId := h.next },
   { store := Function.update h.store h.next (newBucket opts), next := h.next + 1 })

/-- `NewGroup` from `iocap.go`: a group owning one freshly allocated
bucket. -/
def NewGroup (opts : RateOpts) (h : BucketHeap) : Group × BucketHeap :=
  ({ bucketId := h.next },
   { store := Function.update h.store h.next (newBucket opts), next := h.next + 1 })

/-- `Group.NewWriter` from `iocap.go`: a writer holding the group's bucket
itself (`bucket: g.bucket`); nothing is allocated. -/
def Group.NewWriter (g : Group) (dstId : Nat) : Writer :=
  { dstId := dstId, bucketId := g.bucketId }

/-- `Group.NewReader` from `iocap.go`: a reader holding the group's bucket
itself (`bucket: g.bucket`); nothing is allocated. -/
def Group.NewReader (g : Group) (srcId : Nat) : Reader :=
  { srcId := srcId, bucketId := g.bucketId }

/-- `Group.SetRate` from `iocap.go`: delegates to the shared bucket's
`setRate` (which is itself modelled from the spec, see `Bucket.setRate`). -/
def Group.SetRate (g : Group) (opts : RateOpts) (h : BucketHeap) : BucketHeap :=
  { h with store := Function.update h.store g.bucketId ((h.store g.bucketId).setRate opts) }

/-- One acquisition (`insert`) performed through a wrapper against the heap
cell the wrapper's `bucket` field points at. -/
def acquireVia (h : BucketHeap) (bucketId : Nat) (n : Int) : Int × BucketHeap :=
  let r := (h.store bucketId).insert n
  (r.1, { h with store := Function.update h.store bucketId r.2 })

/-! ## Rate-limited Read/Write loops (`iocap.go`)

`Reader.Read`/`Writer.Write` loop while `n < len(p)`: acquire
`len(p) - n` tokens from the bucket, transfer at most the granted count
through the underlying stream, and stop early on an underlying error.  The
underlying stream is modelled as a function from the call index and the
requested slice length to the byte count transferred and an optional
error.  The result records the byte count, the final error, and — to state
that the empty-buffer case consults nothing — the number of bucket
acquisitions and of underlying-stream calls made. -/

structure IOResult where
  n : Int
  err : Option Unit
  bucketCalls : Nat
  streamCalls : Nat
  deriving DecidableEq, Repr

/-- The loop of `Reader.Read` from `iocap.go`.  `stream i len` is the
underlying `src.Read` on its `i`-th call with a slice of length `len`.
`rfuel` bounds loop iterations and `wfuel` the retries inside each
`bucket.wait`; `none` means some blocking operation did not complete
within the fuel. -/
def readLoop (stream : Nat → Int → Int × Option Unit) (wfuel : Nat) (plen : Int) :
    Nat → Int → Bucket → Int → Nat → Nat → Option (IOResult × Bucket × Int)
  | rfuel, n, b, now, bc, sc =>
    if n < plen then
      match rfuel with
      | 0 => none
      | rfuel + 1 =>
        match Bucket.wait wfuel b (plen - n) now with
        | none => none
        | some (v, b1, now1) =>
          let r := stream sc v
          let n1 := n + r.1
          if r.2.isSome then
            some (⟨n1, r.2, bc + 1, sc + 1⟩, b1, now1)
          else
            readLoop stream wfuel plen rfuel n1 b1 now1 (bc + 1) (sc + 1)
    else
      some (⟨n, none, bc, sc⟩, b, now)

/-- `Reader.Read` from `iocap.go`: run the loop from `n = 0` against the
reader's bucket. -/
def Reader.Read (r : Reader) (stream : Nat → Int → Int × Option Unit)
    (wfuel rfuel : Nat) (h : BucketHeap) (now : Int) (plen : Int) :
    Option (IOResult × Bucket × Int) :=
  readLoop stream wfuel plen rfuel 0 (h.store r.bucketId) now 0 0

/-- The loop of `Writer.Write` from `iocap.go`; textually the same loop as
`Reader.Read` with the underlying `dst.Write` in place of `src.Read`. -/
def writeLoop (stream : Nat → Int → Int × Option Unit) (wfuel : Nat) (plen : Int) :
    Nat → Int → Bucket → Int → Nat → Nat → Option (IOResult × Bucket × Int)
  | rfuel, n, b, now, bc, sc =>
    if n < plen then
      match rfuel with
      | 0 => none
      | rfuel + 1 =>
        match Bucket.wait wfuel b (plen - n) now with
        | none => none
        | some (v, b1, now1) =>
          let r := stream sc v
          let n1 := n + r.1
          if r.2.isSome then
            some (⟨n1, r.2, bc + 1, sc + 1⟩, b1, now1)
          else
            writeLoop stream wfuel plen rfuel n1 b1 now1 (bc + 1) (sc + 1)
    else
      some (⟨n, none, bc, sc⟩, b, now)

/-- `Writer.Write` from `iocap.go`: run the loop from `n = 0` against the
writer's bucket. -/
def Writer.Write (w : Writer) (stream : Nat → Int → Int × Option Unit)
    (wfuel rfuel : Nat) (h : BucketHeap) (now : Int) (plen : Int) :
    Option (IOResult × Bucket × Int) :=
  writeLoop stream wfuel plen rfuel 0 (h.store w.bucketId) now 0 0

/-! ## Keyed handler cache with reaper (`mapper.go`) -/

/-- The mutable state of the `handler` struct from `mapper.go`: the cached
per-key handlers, the per-key reap timers (a live timer is modelled by the
delay it was last set to), and the configured reap delay. -/
structure MapperState (α : Type) where
  groups : String → Option α
  groupReap : String → Option Int
  reapDelay : Int

/-- `handler.handler` from `mapper.go`: look up or create the handler for
`group` under the lock.  If absent, build it with the factory, store it,
and start a reap timer when `reapDelay != 0`; if present, reset the
existing timer (when one exists) to `reapDelay`.  The returned `Bool`
records whether the factory was invoked. -/
def MapperState.handlerFor {α : Type} (factory : String → α)
    (s : MapperState α) (group : String) : α × MapperState α × Bool :=
  match s.groups group with
  | none =>
    let hand := factory group
    let groups2 := Function.update s.groups group (some hand)
    let reap2 :=
      if s.reapDelay ≠ 0 then
        Function.update s.groupReap group (some s.reapDelay)
      else
        s.groupReap
    (hand, { s with groups := groups2, groupReap := reap2 }, true)
  | some hand =>
    let reap2 :=
      match s.groupReap group with
      | some _ => Function.update s.groupReap group (some s.reapDelay)
      | none => s.groupReap
    (hand, { s with groupReap := reap2 }, false)

/-- `handler.reap` from `mapper.go`: stop and remove the timer for `group`
(when present) and delete the group's handler. -/
def MapperState.reap {α : Type} (s : MapperState α) (group : String) :
    MapperState α :=
  { s with groups := Function.update s.groups group none,
           groupReap := Function.update s.groupReap group none }

/-- An event against the mapper: an incoming request dispatched to `key`
(`handler.handler`), or the firing of the reap timer for `key`.  A timer
can fire only if it exists; a `fire` for a key with no live timer is a
no-op. -/
inductive MapperEvent
  | req (key : String)
  | fire (key : String)

/-- One event step: the mapper state together with the per-key count of
factory invocations so far. -/
def mapperStep {α : Type} (factory : String → α)
    (sc : MapperState α × (String → Nat)) (e : MapperEvent) :
    MapperState α × (String → Nat) :=
  match e with
  | MapperEvent.req k =>
    let r := sc.1.handlerFor factory k
    (r.2.1,
     if r.2.2 then Function.update sc.2 k (sc.2 k + 1) else sc.2)
  | MapperEvent.fire k =>
    match sc.1.groupReap k with
    | some _ => (sc.1.reap k, sc.2)
    | none => sc

/-- The mapper state built by `New` in `mapper.go` (empty maps) with the
given reap delay. -/
def mapperInit (α : Type) (reapDelay : Int) : MapperState α :=
  { groups := fun _ => none, groupReap := fun _ => none, reapDelay := reapDelay }

/-- Run a sequence of events against a fresh zero-delay mapper, counting
factory invocations per key. -/
def mapperRunZero {α : Type} (factory : String → α) (events : List MapperEvent) :
    MapperState α × (String → Nat) :=
  events.foldl (mapperStep factory) (mapperInit α 0, fun _ => 0)

/-! ## Stated properties -/

/-- The spec's bucket invariant: `0 ≤ consumed ≤ capacity`. -/
def BucketInv (b : Bucket) : Prop :=
  0 ≤ b.tokens ∧ b.tokens ≤ b.opts.Size

instance (b : Bucket) : Decidable (BucketInv b) :=
  inferInstanceAs (Decidable (_ ∧ _))

/-- Invariant of a zero-delay mapper run: no timer exists for any key, and
the per-key factory-call count is 1 for cached keys and 0 for uncached
ones. -/
def MapperZeroInv {α : Type} (sc : MapperState α × (String → Nat)) : Prop :=
  sc.1.reapDelay = 0 ∧
  ∀ k, sc.1.groupReap k = none ∧
    sc.2 k = (if (sc.1.groups k).isSome then 1 else 0)

/-! ## Helper lemmas -/

/-- The bucket-full branch of `insert`: a zero grant and no state change. -/
theorem Bucket.insert_full {b : Bucket} (n : Int) (h : b.tokens = b.opts.Size) :
    b.insert n = (0, b) := by
  simp [Bucket.insert, h]

/-- The overflow branch of `insert`: a partial grant filling the bucket. -/
theorem Bucket.insert_overflow {b : Bucket} {n : Int}
    (h1 : b.tokens ≠ b.opts.Size) (h2 : b.opts.Size < b.tokens + n) :
    b.insert n = (b.opts.Size - b.tokens, { b with tokens := b.opts.Size }) := by
  simp only [Bucket.insert]
  rw [if_neg h1, if_pos h2]

/-- The default branch of `insert`: the full requested grant. -/
theorem Bucket.insert_default {b : Bucket} {n : Int}
    (h1 : b.tokens ≠ b.opts.Size) (h2 : b.tokens + n ≤ b.opts.Size) :
    b.insert n = (n, { b with tokens := b.tokens + n }) := by
  simp only [Bucket.insert]
  rw [if_neg h1, if_neg (by omega)]

/-- `insert` never changes the rate options. -/
theorem Bucket.insert_opts (b : Bucket) (n : Int) : (b.insert n).2.opts = b.opts := by
  simp only [Bucket.insert]
  split
  · rfl
  · split <;> rfl

/-- A blocking `drain` always leaves the bucket with zero tokens. -/
theorem Bucket.drain_true_tokens (b : Bucket) (now : Int) :
    ((b.drain true now).1).tokens = 0 := by
  simp only [Bucket.drain, Bucket.drainNB]
  split
  · rfl
  · split
    · split
      · rfl
      · omega
    · simp_all

/-- `drain` never changes the rate options. -/
theorem Bucket.drain_opts (b : Bucket) (w : Bool) (now : Int) :
    ((b.drain w now).1).opts = b.opts := by
  simp only [Bucket.drain, Bucket.drainNB]
  split
  · rfl
  · split
    · split <;> rfl
    · rfl

/-- The non-blocking up-front drain in `wait` leaves the tokens either
untouched or reset to zero. -/
theorem Bucket.drainNB_tokens (b : Bucket) (now : Int) :
    ((b.drainNB now).1).tokens = 0 ∨ (b.drainNB now).1 = b := by
  simp only [Bucket.drainNB]
  split
  · exact Or.inl rfl
  · exact Or.inr rfl

/-- `drainNB` never changes the rate options. -/
theorem Bucket.drainNB_opts (b : Bucket) (now : Int) :
    ((b.drainNB now).1).opts = b.opts := by
  simp only [Bucket.drainNB]
  split <;> rfl

/-! ## C1: grants on a freshly drained bucket -/

/-- C1: on a bucket with `consumed = 0` and positive capacity, `insert n`
with `0 < n ≤ capacity` returns exactly `n` and leaves `consumed = n`,
while `insert n` with `n > capacity` returns exactly `capacity` and leaves
the bucket full (`consumed = capacity`). -/
theorem C1_fresh_bucket_insert (b : Bucket) (n : Int)
    (h0 : b.tokens = 0) (hsz : 0 < b.opts.Size) :
    (0 < n → n ≤ b.opts.Size →
      b.insert n = (n, { b with tokens := n })) ∧
    (b.opts.Size < n →
      b.insert n = (b.opts.Size, { b with tokens := b.opts.Size })) := by
  constructor
  · intro hn hle
    rw [Bucket.insert_default (by omega) (by omega), h0, zero_add]
  · intro hgt
    rw [Bucket.insert_overflow (by omega) (by omega), h0, sub_zero]

/-- Witness for C1 at `capacity = 256`, `n = 100` and `n = 300`. -/
theorem C1_fresh_bucket_insert_witness :
    Bucket.insert (newBucket ⟨100, 256⟩) 100 = (100, ⟨⟨100, 256⟩, 0, 100⟩) ∧
    Bucket.insert (newBucket ⟨100, 256⟩) 300 = (256, ⟨⟨100, 256⟩, 0, 256⟩) :=
  ⟨(C1_fresh_bucket_insert (newBucket ⟨100, 256⟩) 100 (by decide) (by decide)).1
      (by decide) (by decide),
   (C1_fresh_bucket_insert (newBucket ⟨100, 256⟩) 300 (by decide) (by decide)).2
      (by decide)⟩

/-! ## C5: drain semantics -/

/-- C5: a non-blocking drain before the interval has elapsed is a no-op;
once at least `interval` has elapsed any drain resets `consumed` to 0 and
stamps the drain timestamp with the current time; and a blocking drain
before the boundary returns exactly at the next interval boundary (so only
after at least the remaining time has elapsed) with `consumed` reset
to 0. -/
theorem C5_drain_semantics (b : Bucket) (now : Int) :
    (now - b.drained < b.opts.Interval → b.drain false now = (b, now)) ∧
    (b.opts.Interval ≤ now - b.drained → ∀ w,
      b.drain w now = ({ b with tokens := 0, drained := now }, now)) ∧
    (now - b.drained < b.opts.Interval →
      b.drain true now =
        ({ b with tokens := 0, drained := b.drained + b.opts.Interval },
         b.drained + b.opts.Interval) ∧
      now + (b.drained + b.opts.Interval - now) ≤ (b.drain true now).2) := by
  refine ⟨fun h1 => ?_, fun h2 w => ?_, fun h3 => ?_⟩
  · simp only [Bucket.drain]
    rw [if_neg (by omega), if_neg (by simp)]
  · simp only [Bucket.drain]
    rw [if_pos (by omega)]
  · have hd : b.drain true now =
        ({ b with tokens := 0, drained := b.drained + b.opts.Interval },
         b.drained + b.opts.Interval) := by
      simp only [Bucket.drain, Bucket.drainNB]
      split
      · omega
      · split
        · split
          · rfl
          · omega
        · simp_all
    exact ⟨hd, by rw [hd]; omega⟩

/-- Witness for C5: a not-yet-due bucket (`interval = 100`, last drain at
time 0, queried at time 30) and a due bucket (queried at time 130). -/
theorem C5_drain_semantics_witness :
    Bucket.drain ⟨⟨100, 256⟩, 0, 7⟩ false 30 = (⟨⟨100, 256⟩, 0, 7⟩, 30) ∧
    Bucket.drain ⟨⟨100, 256⟩, 0, 7⟩ true 130 = (⟨⟨100, 256⟩, 130, 0⟩, 130) ∧
    Bucket.drain ⟨⟨100, 256⟩, 0, 7⟩ true 30 = (⟨⟨100, 256⟩, 100, 0⟩, 100) :=
  ⟨(C5_drain_semantics ⟨⟨100, 256⟩, 0, 7⟩ 30).1 (by decide),
   (C5_drain_semantics ⟨⟨100, 256⟩, 0, 7⟩ 130).2.1 (by decide) true,
   ((C5_drain_semantics ⟨⟨100, 256⟩, 0, 7⟩ 30).2.2 (by decide)).1⟩

/-! ## C4: SetRate replaces only the rate options -/

/-- C4: `setRate` replaces only the bucket's rate options — the consumed
count and the last-drain timestamp are unchanged (also when performed
through `Group.SetRate` against the group's shared bucket) — so a bucket
fully consumed at 256/256 whose capacity is raised to 512 grants exactly
256 more on the next acquisition of at least 256, leaving the bucket full
at 512, not granting 512. -/
theorem C4_setRate_frame (b : Bucket) (o : RateOpts) (g : Group) (h : BucketHeap) :
    (b.setRate o).tokens = b.tokens ∧
    (b.setRate o).drained = b.drained ∧
    (b.setRate o).opts = o ∧
    ((g.SetRate o h).store g.bucketId).tokens = (h.store g.bucketId).tokens ∧
    ((g.SetRate o h).store g.bucketId).drained = (h.store g.bucketId).drained ∧
    (∀ i2 n, b.tokens = 256 → b.opts.Size = 256 → 256 ≤ n →
      (b.setRate ⟨i2, 512⟩).insert n = (256, { b with opts := ⟨i2, 512⟩, tokens := 512 })) := by
  refine ⟨rfl, rfl, rfl, ?_, ?_, ?_⟩
  · simp [Group.SetRate, Bucket.setRate]
  · simp [Group.SetRate, Bucket.setRate]
  · intro i2 n ht hs hn
    rcases lt_or_eq_of_le hn with hlt | heq
    · rw [show (b.setRate ⟨i2, 512⟩).insert n =
          ((b.setRate ⟨i2, 512⟩).opts.Size - (b.setRate ⟨i2, 512⟩).tokens,
            { b.setRate ⟨i2, 512⟩ with tokens := (b.setRate ⟨i2, 512⟩).opts.Size }) from
        Bucket.insert_overflow (by simp [Bucket.setRate, ht]) (by simp [Bucket.setRate, ht]; omega)]
      simp [Bucket.setRate, ht]
    · rw [show (b.setRate ⟨i2, 512⟩).insert n =
          (n, { b.setRate ⟨i2, 512⟩ with tokens := (b.setRate ⟨i2, 512⟩).tokens + n }) from
        Bucket.insert_default (by simp [Bucket.setRate, ht]) (by simp [Bucket.setRate, ht]; omega)]
      simp [Bucket.setRate, ht, ← heq]

/-- Witness for C4: the `TestBucketSetRate` scenario — a 256/256 bucket
re-rated to 512 grants exactly 256 on `insert 1024`. -/
theorem C4_setRate_frame_witness :
    Bucket.insert (Bucket.setRate ⟨⟨100, 256⟩, 0, 256⟩ ⟨500, 512⟩) 1024 =
      (256, ⟨⟨500, 512⟩, 0, 512⟩) :=
  (C4_setRate_frame ⟨⟨100, 256⟩, 0, 256⟩ ⟨500, 512⟩ ⟨0⟩
      ⟨fun _ => newBucket ⟨0, 0⟩, 0⟩).2.2.2.2.2 500 1024 (by decide) (by decide) (by decide)

/-! ## C6: the unlimited configuration short-circuits -/

/-- C6: under the `Unlimited` configuration every acquisition
short-circuits: for every `n`, both `insert` and `wait` grant the full
amount `n` immediately, with the bucket state untouched and no blocking
(any fuel, including 0, suffices and the returned time is the call time). -/
theorem C6_unlimited_short_circuit (b : Bucket) (n : Int) (fuel : Nat) (now : Int)
    (hu : b.opts = Unlimited) :
    b.insertU n = (n, b) ∧ b.waitU fuel n now = some (n, b, now) := by
  constructor
  · simp [Bucket.insertU, hu]
  · simp [Bucket.waitU, hu]

/-- Witness for C6: an unlimited bucket with a nonzero token count grants
513 tokens immediately with zero fuel. -/
theorem C6_unlimited_short_circuit_witness :
    Bucket.insertU ⟨Unlimited, 0, 42⟩ 513 = (513, ⟨Unlimited, 0, 42⟩) ∧
    Bucket.waitU 0 ⟨Unlimited, 0, 42⟩ 513 9 = some (513, ⟨Unlimited, 0, 42⟩, 9) :=
  C6_unlimited_short_circuit ⟨Unlimited, 0, 42⟩ 513 0 9 rfl

/-! ## C2: bounds on the value granted by wait -/

/-- The retry loop of `wait` grants a value in `(0, n]` whenever it
returns, provided the request is positive and the bucket satisfies the
token invariant on entry. -/
theorem Bucket.waitAux_pos {fuel : Nat} {b : Bucket} {n now v : Int}
    {b' : Bucket} {t : Int}
    (hinv0 : 0 ≤ b.tokens) (hinv1 : b.tokens ≤ b.opts.Size) (hn : 0 < n)
    (h : Bucket.waitAux fuel b n now = some (v, b', t)) : 0 < v ∧ v ≤ n := by
  induction fuel generalizing b now with
  | zero => simp [Bucket.waitAux] at h
  | succ fuel ih =>
    rw [Bucket.waitAux] at h
    by_cases hfull : b.tokens = b.opts.Size
    · rw [Bucket.insert_full n hfull] at h
      simp only [if_pos rfl] at h
      exact ih (by rw [Bucket.drain_true_tokens])
        (by rw [Bucket.drain_true_tokens, Bucket.drain_opts]; omega) h
    · by_cases hover : b.opts.Size < b.tokens + n
      · rw [Bucket.insert_overflow hfull hover] at h
        rw [if_neg (by omega)] at h
        simp only [Option.some.injEq, Prod.mk.injEq] at h
        omega
      · rw [Bucket.insert_default hfull (by omega)] at h
        rw [if_neg (by omega)] at h
        simp only [Option.some.injEq, Prod.mk.injEq] at h
        omega

/-- C2 (amended): for every call `wait n` with a positive request
`0 < n` on a bucket satisfying the token invariant
`0 ≤ tokens ≤ capacity`, if the call returns then the returned value `v`
satisfies `0 < v ≤ n`; in particular it never returns 0.  (As literally
stated the claim is false: `wait` called with a non-positive `n`, or on a
bucket whose consumed count exceeds a shrunken capacity, can return a
non-positive value, see the counterexample.) -/
theorem C2_wait_grant_bounds (fuel : Nat) (b : Bucket) (n now v : Int)
    (b' : Bucket) (t : Int)
    (hinv0 : 0 ≤ b.tokens) (hinv1 : b.tokens ≤ b.opts.Size) (hn : 0 < n)
    (h : Bucket.wait fuel b n now = some (v, b', t)) : 0 < v ∧ v ≤ n := by
  rw [Bucket.wait] at h
  rcases Bucket.drainNB_tokens b now with h0 | hsame
  · exact Bucket.waitAux_pos (by omega)
      (by rw [h0, Bucket.drainNB_opts]; omega) hn h
  · rw [hsame] at h
    exact Bucket.waitAux_pos hinv0 hinv1 hn h

/-- Witness for C2 at `capacity = 256`, `n = 5`: the call returns 5. -/
theorem C2_wait_grant_bounds_witness : (0 : Int) < 5 ∧ (5 : Int) ≤ 5 :=
  C2_wait_grant_bounds 1 (newBucket ⟨100, 256⟩) 5 0 5 ⟨⟨100, 256⟩, 0, 5⟩ 0
    (by decide) (by decide) (by decide) (by decide)

/-- Counterexample to C2 as stated: `wait (-1)` on a fresh bucket of
capacity 256 returns, and the returned value `-1` is not positive. -/
theorem C2_wait_grant_bounds_cex :
    Bucket.wait 1 (newBucket ⟨100, 256⟩) (-1) 0 =
      some (-1, ⟨⟨100, 256⟩, 0, -1⟩, 0) ∧ ¬ (0 : Int) < -1 := by decide

/-! ## C3: the token invariant -/

/-- `insert` with a nonnegative request preserves the token invariant. -/
theorem Bucket.insert_inv {b : Bucket} {n : Int}
    (hb : BucketInv b) (hn : 0 ≤ n) : BucketInv (b.insert n).2 := by
  obtain ⟨h0, h1⟩ := hb
  by_cases hfull : b.tokens = b.opts.Size
  · rw [Bucket.insert_full n hfull]; exact ⟨h0, h1⟩
  · by_cases hover : b.opts.Size < b.tokens + n
    · rw [Bucket.insert_overflow hfull hover]
      exact ⟨by simp; omega, by simp⟩
    · rw [Bucket.insert_default hfull (by omega)]
      exact ⟨by simp; omega, by simp; omega⟩

/-- `drain` preserves the token invariant. -/
theorem Bucket.drain_inv {b : Bucket} (w : Bool) (now : Int)
    (hb : BucketInv b) : BucketInv (b.drain w now).1 := by
  obtain ⟨h0, h1⟩ := hb
  simp only [Bucket.drain, Bucket.drainNB]
  split
  · exact ⟨le_refl 0, by simp; omega⟩
  · split
    · split
      · exact ⟨le_refl 0, by simp; omega⟩
      · exact ⟨h0, h1⟩
    · exact ⟨h0, h1⟩

/-- The `wait` retry loop preserves the token invariant on the bucket it
returns. -/
theorem Bucket.waitAux_inv {fuel : Nat} {b : Bucket} {n now v : Int}
    {b' : Bucket} {t : Int}
    (hb : BucketInv b) (hn : 0 ≤ n)
    (h : Bucket.waitAux fuel b n now = some (v, b', t)) : BucketInv b' := by
  induction fuel generalizing b now with
  | zero => simp [Bucket.waitAux] at h
  | succ fuel ih =>
    rw [Bucket.waitAux] at h
    by_cases hz : (Bucket.insert b n).1 = 0
    · rw [if_pos hz] at h
      exact ih (Bucket.drain_inv true now (Bucket.insert_inv hb hn)) h
    · rw [if_neg hz] at h
      simp only [Option.some.injEq, Prod.mk.injEq] at h
      rw [← h.2.1]
      exact Bucket.insert_inv hb hn

/-- C3 (amended): the invariant `0 ≤ consumed ≤ capacity` holds of a newly
constructed bucket with nonnegative capacity and is preserved by `insert`
and `wait` for nonnegative requests and by `drain`; `setRate` preserves it
exactly when the new capacity is at least the in-flight consumed count — a
`setRate` that shrinks the capacity below the current consumed count
violates the invariant (see the counterexample), the consumed count being
preserved as the spec prescribes. -/
theorem C3_token_invariant (opts : RateOpts) (b : Bucket) (n now : Int)
    (w : Bool) (o2 : RateOpts) (fuel : Nat) :
    (0 ≤ opts.Size → BucketInv (newBucket opts)) ∧
    (BucketInv b → 0 ≤ n → BucketInv (b.insert n).2) ∧
    (BucketInv b → BucketInv (b.drain w now).1) ∧
    (BucketInv b → 0 ≤ n → ∀ v b' t,
      Bucket.wait fuel b n now = some (v, b', t) → BucketInv b') ∧
    (BucketInv b → b.tokens ≤ o2.Size → BucketInv (b.setRate o2)) := by
  refine ⟨fun hsz => ⟨le_refl 0, hsz⟩,
          fun hb hn => Bucket.insert_inv hb hn,
          fun hb => Bucket.drain_inv w now hb,
          fun hb hn v b' t h => ?_,
          fun hb h2 => ⟨hb.1, h2⟩⟩
  rw [Bucket.wait] at h
  rcases Bucket.drainNB_tokens b now with h0 | hsame
  · exact Bucket.waitAux_inv
      ⟨by omega, by rw [h0, Bucket.drainNB_opts]; exact le_trans hb.1 hb.2⟩ hn h
  · rw [hsame] at h
    exact Bucket.waitAux_inv hb hn h

/-- Witness for C3: the invariant after construction, an insert, a drain, a
wait, and a capacity-growing `setRate` on a 256-capacity bucket holding 5
tokens. -/
theorem C3_token_invariant_witness :
    BucketInv (newBucket ⟨100, 256⟩) ∧
    BucketInv (Bucket.insert ⟨⟨100, 256⟩, 0, 5⟩ 3).2 ∧
    BucketInv (Bucket.drain ⟨⟨100, 256⟩, 0, 5⟩ true 7).1 ∧
    BucketInv (⟨⟨100, 256⟩, 0, 8⟩ : Bucket) ∧
    BucketInv (Bucket.setRate ⟨⟨100, 256⟩, 0, 5⟩ ⟨50, 300⟩) := by
  have h := C3_token_invariant ⟨100, 256⟩ ⟨⟨100, 256⟩, 0, 5⟩ 3 7 true ⟨50, 300⟩ 1
  exact ⟨h.1 (by decide), h.2.1 (by decide) (by decide), h.2.2.1 (by decide),
         h.2.2.2.1 (by decide) (by decide) 3 ⟨⟨100, 256⟩, 0, 8⟩ 7 (by decide),
         h.2.2.2.2 (by decide) (by decide)⟩

/-- Counterexample to C3 as stated: on a bucket filled to 256/256
(reachable by one insert on a fresh bucket), `setRate` to capacity 128
leaves `consumed = 256 > 128 = capacity`, violating the invariant. -/
theorem C3_token_invariant_cex :
    ¬ BucketInv ((Bucket.insert (newBucket ⟨100, 256⟩) 256).2.setRate ⟨100, 128⟩) := by
  decide

/-! ## C7: construction performs no validation -/

/-- On a zero-capacity bucket the `wait` retry loop never returns: every
insert grants 0 and every blocking drain leaves the count at 0 = capacity. -/
theorem Bucket.waitAux_none_of_size_zero (fuel : Nat) (b : Bucket)
    (n now : Int) (h0 : b.tokens = 0) (hsz : b.opts.Size = 0) :
    Bucket.waitAux fuel b n now = none := by
  induction fuel generalizing b now with
  | zero => rfl
  | succ fuel ih =>
    rw [Bucket.waitAux, Bucket.insert_full n (by omega)]
    simp only [if_pos rfl]
    exact ih _ _ (Bucket.drain_true_tokens b now)
      (by rw [Bucket.drain_opts]; exact hsz)

/-- C7 (amended): construction performs no validation and cannot fail —
`newBucket` stores any options, positive or not, and returns a bucket in
the initial state; and with limiting enabled a zero capacity yields a
bucket on which every acquisition blocks forever (`wait` never returns,
whatever the fuel).  (As literally stated the claim is false: nothing is
rejected at construction time, see the counterexample.) -/
theorem C7_no_construction_validation (opts : RateOpts) (fuel : Nat)
    (n now : Int) :
    newBucket opts = { opts := opts, drained := 0, tokens := 0 } ∧
    (opts.Size = 0 → Bucket.wait fuel (newBucket opts) n now = none) := by
  refine ⟨rfl, fun hsz => ?_⟩
  rw [Bucket.wait]
  rcases Bucket.drainNB_tokens (newBucket opts) now with h0 | hsame
  · exact Bucket.waitAux_none_of_size_zero _ _ _ _ h0
      (by rw [Bucket.drainNB_opts]; exact hsz)
  · rw [hsame]
    exact Bucket.waitAux_none_of_size_zero _ _ _ _ rfl hsz

/-- Witness for C7: a bucket misconfigured with interval 100 and capacity
0 is constructed without complaint, and `wait 1` on it makes no progress
within 3 retries. -/
theorem C7_no_construction_validation_witness :
    newBucket ⟨100, 0⟩ = ⟨⟨100, 0⟩, 0, 0⟩ ∧
    Bucket.wait 3 (newBucket ⟨100, 0⟩) 1 0 = none :=
  ⟨(C7_no_construction_validation ⟨100, 0⟩ 3 1 0).1,
   (C7_no_construction_validation ⟨100, 0⟩ 3 1 0).2 rfl⟩

/-- Counterexample to C7 as stated: constructing a bucket with capacity 0
(limiting enabled, interval 50) is not rejected — it returns an ordinary
bucket — and a `wait 2` on that bucket still has not returned after 10
blocking drains. -/
theorem C7_no_construction_validation_cex :
    newBucket ⟨50, 0⟩ = ⟨⟨50, 0⟩, 0, 0⟩ ∧
    Bucket.wait 10 (newBucket ⟨50, 0⟩) 2 0 = none := by decide

/-! ## C8: wrappers created in a group share the group's bucket -/

/-- C8: every Writer from `Group.NewWriter` and every Reader from
`Group.NewReader` holds the group's one shared bucket (the same heap id,
with no fresh allocation), unlike the standalone `NewWriter` which
allocates a fresh private bucket; consequently acquisitions through any
wrappers of the same group draw down the same consumed counter: an
acquisition through one is an `insert` on the bucket at the group's id,
and a subsequent acquisition through another sees that drawn-down
bucket. -/
theorem C8_group_shares_bucket (g : Group) (dstId srcId : Nat)
    (h : BucketHeap) (n m : Int) (opts : RateOpts) :
    (g.NewWriter dstId).bucketId = g.bucketId ∧
    (g.NewReader srcId).bucketId = g.bucketId ∧
    (NewWriter dstId opts h).1.bucketId = h.next ∧
    (NewWriter dstId opts h).2.store h.next = newBucket opts ∧
    (acquireVia h (g.NewWriter dstId).bucketId n).1 =
      ((h.store g.bucketId).insert n).1 ∧
    (acquireVia h (g.NewWriter dstId).bucketId n).2.store g.bucketId =
      ((h.store g.bucketId).insert n).2 ∧
    (acquireVia (acquireVia h (g.NewWriter dstId).bucketId n).2
        (g.NewReader srcId).bucketId m).1 =
      (((h.store g.bucketId).insert n).2.insert m).1 := by
  refine ⟨rfl, rfl, rfl, by simp [NewWriter], rfl, ?_, ?_⟩
  · simp [acquireVia, Group.NewWriter]
  · simp [acquireVia, Group.NewWriter, Group.NewReader]

/-! ## C9: the keyed-handler cache calls the factory exactly on misses -/

/-- The cache-miss branch of `handler.handler`. -/
theorem MapperState.handlerFor_absent {α : Type} (factory : String → α)
    (s : MapperState α) (k : String) (hg : s.groups k = none) :
    s.handlerFor factory k =
      (factory k,
       { s with groups := Function.update s.groups k (some (factory k)),
                groupReap :=
                  if s.reapDelay ≠ 0 then
                    Function.update s.groupReap k (some s.reapDelay)
                  else
                    s.groupReap },
       true) := by
  simp only [MapperState.handlerFor, hg]

/-- The cache-hit branch of `handler.handler`. -/
theorem MapperState.handlerFor_present {α : Type} (factory : String → α)
    (s : MapperState α) (k : String) (hand : α) (hg : s.groups k = some hand) :
    s.handlerFor factory k =
      (hand,
       { s with groupReap :=
                  match s.groupReap k with
                  | some _ => Function.update s.groupReap k (some s.reapDelay)
                  | none => s.groupReap },
       false) := by
  simp only [MapperState.handlerFor, hg]

/-- One event step preserves the zero-delay invariant. -/
theorem mapperStep_zeroInv {α : Type} (factory : String → α)
    (sc : MapperState α × (String → Nat)) (e : MapperEvent)
    (hinv : MapperZeroInv sc) : MapperZeroInv (mapperStep factory sc e) := by
  obtain ⟨hdelay, hk⟩ := hinv
  cases e with
  | req k =>
    cases hgopt : sc.1.groups k with
    | none =>
      simp only [mapperStep, MapperState.handlerFor_absent factory sc.1 k hgopt,
        if_true]
      refine ⟨hdelay, fun k2 => ⟨?_, ?_⟩⟩
      · simp only [hdelay]
        rw [if_neg (by simp)]
        exact (hk k2).1
      · by_cases he : k2 = k
        · subst he
          show Function.update sc.2 k2 (sc.2 k2 + 1) k2 =
            if (Function.update sc.1.groups k2 (some (factory k2)) k2).isSome = true
            then 1 else 0
          rw [Function.update_same, Function.update_same, (hk k2).2, hgopt]
          simp
        · show Function.update sc.2 k (sc.2 k + 1) k2 =
            if (Function.update sc.1.groups k (some (factory k)) k2).isSome = true
            then 1 else 0
          rw [Function.update_noteq he, Function.update_noteq he]
          exact (hk k2).2
    | some hand =>
      simp only [mapperStep, MapperState.handlerFor_present factory sc.1 k hand hgopt,
        (hk k).1, Bool.false_eq_true, if_false]
      exact ⟨hdelay, fun k2 => ⟨(hk k2).1, (hk k2).2⟩⟩
  | fire k =>
    simp only [mapperStep, (hk k).1]
    exact ⟨hdelay, hk⟩

/-- A zero-delay run from the empty mapper satisfies the invariant. -/
theorem mapperRunZero_inv {α : Type} (factory : String → α)
    (events : List MapperEvent) : MapperZeroInv (mapperRunZero factory events) := by
  rw [mapperRunZero]
  induction events using List.reverseRecOn with
  | nil =>
    exact ⟨rfl, fun k => ⟨rfl, rfl⟩⟩
  | append_singleton es e ih =>
    rw [List.foldl_append, List.foldl_cons, List.foldl_nil]
    exact mapperStep_zeroInv factory _ e ih

/-- C9: the factory runs exactly when the key has no cached entry.  On a
miss the handler is built by the factory, stored, and a reap timer of
length `reapDelay` is started exactly when `reapDelay ≠ 0`; on a hit the
stored handler is returned with no factory call and the existing timer (if
any) is reset to `reapDelay`; and on a zero-delay mapper no timer is ever
created and, over any sequence of requests and timer firings from a fresh
mapper, the factory runs at most once per key. -/
theorem C9_mapper_factory_on_miss (α : Type) (factory : String → α)
    (s : MapperState α) (k : String) (hand : α)
    (events : List MapperEvent) (k2 : String) :
    ((s.handlerFor factory k).2.2 = (s.groups k).isNone) ∧
    (let sA : MapperState α := { s with groups := Function.update s.groups k none }
     let r := sA.handlerFor factory k
     r.1 = factory k ∧ r.2.2 = true ∧
     r.2.1.groups k = some (factory k) ∧
     r.2.1.groupReap k =
       (if s.reapDelay ≠ 0 then some s.reapDelay else s.groupReap k)) ∧
    (let sP : MapperState α := { s with groups := Function.update s.groups k (some hand) }
     let r := sP.handlerFor factory k
     r.1 = hand ∧ r.2.2 = false ∧
     r.2.1.groups k = some hand ∧
     r.2.1.groupReap k = (s.groupReap k).map (fun _ => s.reapDelay)) ∧
    ((mapperRunZero factory events).1.groupReap k2 = none ∧
     (mapperRunZero factory events).2 k2 ≤ 1) := by
  refine ⟨?_, ?_, ?_, ?_⟩
  · cases hg : s.groups k <;> simp [MapperState.handlerFor, hg]
  · by_cases hd : s.reapDelay = 0 <;>
      simp [MapperState.handlerFor, Function.update_same, hd]
  · cases hr : s.groupReap k <;>
      simp [MapperState.handlerFor, Function.update_same, hr]
  · obtain ⟨-, hk2⟩ := mapperRunZero_inv factory events
    refine ⟨(hk2 k2).1, ?_⟩
    rw [(hk2 k2).2]
    split <;> omega

/-! ## C10: empty-buffer reads and writes are pure no-ops -/

/-- C10: `Reader.Read` and `Writer.Write` on an empty buffer return
`(0, nil)` immediately, for every underlying stream, bucket heap, wait
fuel and loop fuel (including 0): the bucket is consulted zero times, the
underlying stream is invoked zero times, and the wrapper's bucket and the
clock are untouched. -/
theorem C10_empty_buffer_noop (r : Reader) (w : Writer)
    (stream stream2 : Nat → Int → Int × Option Unit)
    (wfuel rfuel wfuel2 rfuel2 : Nat) (h : BucketHeap) (now : Int) :
    r.Read stream wfuel rfuel h now 0 =
      some (⟨0, none, 0, 0⟩, h.store r.bucketId, now) ∧
    w.Write stream2 wfuel2 rfuel2 h now 0 =
      some (⟨0, none, 0, 0⟩, h.store w.bucketId, now) := by
  constructor
  · rw [Reader.Read, readLoop.eq_def]
    simp
  · rw [Writer.Write, writeLoop.eq_def]
    simp


end Iocap
